import Mathlib

/-
Verification of the composable schema-builder core (array items, reference
targets, named objects, documents) against its natural-language specification.

The builders compose schemas of an external validation library; we embed the
combinators the source actually uses (string, boolean, never, literal, object,
union, array-with-length-checks, and the wire-string-to-date transform used by
document timestamps) as the inductive `Zod`, together with an executable
parse evaluator `parseV` returning `Option Value` (`none` models a raised
ValidationError, `some` the transformed application value).
-/

namespace SchemaBuilder

/-- Wire / application values: a JSON-like universe. `vDate s` is the
structured date obtained from the wire string `s` (the result of the
timestamp conversion a document parse performs). -/
inductive Value where
  | vNull : Value
  | vBool : Bool → Value
  | vStr : String → Value
  | vNum : Int → Value
  | vDate : String → Value
  | vArr : List Value → Value
  | vObj : List (String × Value) → Value
deriving Repr

/-- Length checks carried by an embedded array schema. A fresh
`z.array(elem)` has none of them; `.nonempty()` / `.min(n)` / `.max(n)` /
`.length(n)` each switch one on. -/
structure ArrayChecks where
  nonempty : Bool := false
  minC : Option Nat := none
  maxC : Option Nat := none
  lenC : Option Nat := none
deriving Repr, DecidableEq

mutual
/-- The schema combinators used by the builders under verification. -/
inductive Zod where
  | zString : Zod
  | zBoolean : Zod
  | zNever : Zod
  | zLiteral : String → Zod
  | zDatetimeToDate : Zod
  | zObject : ZFields → Zod
  | zUnion : ZAlts → Zod
  | zArray : Zod → ArrayChecks → Zod
deriving Repr

/-- An object shape: ordered fields, each a name, a sub-schema and an
optionality flag (`optional = true` means the key may be absent). -/
inductive ZFields where
  | nil : ZFields
  | cons : String → Zod → Bool → ZFields → ZFields
deriving Repr

/-- The ordered alternatives of a union schema. -/
inductive ZAlts where
  | nil : ZAlts
  | cons : Zod → ZAlts → ZAlts
deriving Repr
end

/-- First binding of a key in an object value (object keys are unique in
well-formed wire values). -/
def lookupKey : List (String × Value) → String → Option Value
  | [], _ => none
  | (k, v) :: rest, n => if k = n then some v else lookupKey rest n

/-- All length checks an array schema carries must hold of the input's
length. -/
def checksOk (c : ArrayChecks) (n : Nat) : Bool :=
  (!c.nonempty || decide (1 ≤ n)) &&
  (match c.minC with | none => true | some m => decide (m ≤ n)) &&
  (match c.maxC with | none => true | some m => decide (n ≤ m)) &&
  (match c.lenC with | none => true | some l => n == l)

mutual
/-- Parse a value against a schema: `none` is a ValidationError, `some` the
transformed application value. Mirrors the external validation library's
behaviour on the combinators the source composes. -/
def parseV : Zod → Value → Option Value
  | .zString, .vStr s => some (.vStr s)
  | .zString, _ => none
  | .zBoolean, .vBool b => some (.vBool b)
  | .zBoolean, _ => none
  | .zNever, _ => none
  | .zLiteral s, .vStr t => if t = s then some (.vStr t) else none
  | .zLiteral _, _ => none
  | .zDatetimeToDate, .vStr s => some (.vDate s)
  | .zDatetimeToDate, _ => none
  | .zObject flds, .vObj kvs => (parseFieldsV flds kvs).map Value.vObj
  | .zObject _, _ => none
  | .zUnion alts, v => parseAlts alts v
  | .zArray elem c, .vArr xs =>
      if checksOk c xs.length then (parseElems elem xs).map Value.vArr else none
  | .zArray _ _, _ => none
termination_by z v => (sizeOf z, sizeOf v)

/-- Try union alternatives left to right; first success wins. -/
def parseAlts : ZAlts → Value → Option Value
  | .nil, _ => none
  | .cons z zs, v =>
      match parseV z v with
      | some w => some w
      | none => parseAlts zs v
termination_by as v => (sizeOf as, sizeOf v)

/-- Parse every element of an array input against the element schema. -/
def parseElems : Zod → List Value → Option (List Value)
  | _, [] => some []
  | elem, x :: xs =>
      match parseV elem x, parseElems elem xs with
      | some y, some ys => some (y :: ys)
      | _, _ => none
termination_by z vs => (sizeOf z, sizeOf vs)

/-- Parse an object input against an ordered field list: a required field
missing from the input fails, an optional missing field is omitted from the
output, unknown input keys are stripped. -/
def parseFieldsV : ZFields → List (String × Value) → Option (List (String × Value))
  | .nil, _ => some []
  | .cons n z opt rest, kvs =>
      match lookupKey kvs n with
      | none => if opt then parseFieldsV rest kvs else none
      | some v =>
          match parseV z v, parseFieldsV rest kvs with
          | some w, some out => some ((n, w) :: out)
          | _, _ => none
termination_by fs kvs => (sizeOf fs, sizeOf kvs)
end

/-- Append two field lists. -/
def ZFields.append : ZFields → ZFields → ZFields
  | .nil, gs => gs
  | .cons n z opt rest, gs => .cons n z opt (rest.append gs)

/-- The field names of an object shape, in declaration order. -/
def ZFields.names : ZFields → List String
  | .nil => []
  | .cons n _ _ rest => n :: rest.names

/-- Drop the fields whose name occurs in `banned`. -/
def ZFields.filterOut : ZFields → List String → ZFields
  | .nil, _ => .nil
  | .cons n z opt rest, banned =>
      if n ∈ banned then rest.filterOut banned
      else .cons n z opt (rest.filterOut banned)

/-- The shape produced by the validation library's object `.extend`: the new
fields override same-named old fields and otherwise are appended. -/
def extendShape (old extra : ZFields) : ZFields :=
  (old.filterOut extra.names).append extra

/-- Whether a schema is an object (record) schema — the embedding of the
source's `zod instanceof z.ZodObject` test. -/
def Zod.isObjectSchema : Zod → Bool
  | .zObject _ => true
  | _ => false

/-- From the source (`addKeyToZod`): extends a record item schema with a
required `_key` string field, and leaves any non-record schema unchanged. -/
def addKeyToZod : Zod → Zod
  | .zObject flds =>
      .zObject (extendShape flds (ZFields.cons "_key" Zod.zString false ZFields.nil))
  | z => z

/-- `addKeyToZod` mapped over a list of item schemas (the source's
`items.slice(2).map(({zod}) => addKeyToZod(zod))`). -/
def addKeyAlts : List Zod → ZAlts
  | [] => .nil
  | z :: zs => .cons (addKeyToZod z) (addKeyAlts zs)

/-- From the source (`itemsInternal`): the element schema of the items
array — `never` with no declared items, the single item's `addKeyToZod`
with one, and the union of all items' `addKeyToZod` with two or more. -/
def elementSchema : List Zod → Zod
  | [] => .zNever
  | [i] => addKeyToZod i
  | i0 :: i1 :: rest =>
      .zUnion (.cons (addKeyToZod i0) (.cons (addKeyToZod i1) (addKeyAlts rest)))

/-- From the source (`itemsInternal`): the default mock of an item set is the
constant empty array (the source's `mock: () => []`, flagged FIXME there);
the generation context is modelled as the structural path string. -/
def itemsMock : String → Value := fun _ => Value.vArr []

/-- A composed item set: the state `referenceInternal`-style builders thread,
holding the declared item schemas in order. -/
structure ItemsNode where
  items : List Zod

/-- From the source (`itemsInternal`'s `zod`): `z.array(<element schema>)`
with no length checks yet. -/
def ItemsNode.zod (s : ItemsNode) : Zod := Zod.zArray (elementSchema s.items) {}

/-- From the source (`itemsInternal`'s `item`): appends the new item,
returning a new item set (`[...items, item]`). -/
def ItemsNode.item (s : ItemsNode) (i : Zod) : ItemsNode :=
  { items := s.items ++ [i] }

/-- From the source (`item`): the one-item starting item set. -/
def item1 (i : Zod) : ItemsNode := { items := [i] }

/-- The cardinality options accepted by the `array` builder. -/
structure ArrayDef where
  length? : Option Nat := none
  max? : Option Nat := none
  min? : Option Nat := none
  nonempty : Bool := false

/-- From the source (`array`'s `zod` flow): applies `.nonempty()`, `.min`,
`.max`, `.length` in that order; `min`/`max` guarded by JavaScript falsiness
(`!min`, `!max`, so a zero is skipped), `length` by an explicit
`=== undefined` test (so `length: 0` is applied). -/
def applyArrayConstraints (d : ArrayDef) : Zod → Zod
  | .zArray elem c =>
      let c := if !d.nonempty then c else { c with nonempty := true }
      let c := match d.min? with
        | none => c
        | some m => if m = 0 then c else { c with minC := some m }
      let c := match d.max? with
        | none => c
        | some m => if m = 0 then c else { c with maxC := some m }
      let c := match d.length? with
        | none => c
        | some l => { c with lenC := some l }
      .zArray elem c
  | z => z

/-- The declarative validation-rule calls (`rule.min` / `rule.max` /
`rule.length`) the emitted descriptor accumulates. -/
inductive RuleOp where
  | rMin : Nat → RuleOp
  | rMax : Nat → RuleOp
  | rLength : Nat → RuleOp
deriving Repr, DecidableEq

/-- From the source (`array`'s `schema().validation` flow): `nonempty`
contributes `rule.min(1)`, then `min`, `max`, `length` contribute their
calls, with the same falsiness guards as the parser flow. -/
def arrayValidationOps (d : ArrayDef) : List RuleOp :=
  (if d.nonempty then [RuleOp.rMin 1] else []) ++
  (match d.min? with
    | none => []
    | some m => if m = 0 then [] else [RuleOp.rMin m]) ++
  (match d.max? with
    | none => []
    | some m => if m = 0 then [] else [RuleOp.rMax m]) ++
  (match d.length? with
    | none => []
    | some l => [RuleOp.rLength l])

/-- An array node as built by the source's `array`: its schema, its mock
(defaulting to the item set's mock when the caller supplies none, as in the
source's `mock = itemsMock`), and the validation calls its descriptor emits. -/
structure ArrayNode where
  zodA : Zod
  mockFn : String → Value
  validationOps : List RuleOp

/-- From the source (`array`): builds the node from the cardinality options
and the item set, with the default mock. -/
def arrayBuilder (d : ArrayDef) (ofItems : ItemsNode) : ArrayNode :=
  { zodA := applyArrayConstraints d ofItems.zod
    mockFn := itemsMock
    validationOps := arrayValidationOps d }

/-- A document node as seen by a reference target list: only its declared
name matters to the reference builder's descriptor. -/
structure DocumentRef where
  name : String
deriving Repr, DecidableEq

/-- Descriptor fragments relevant to the claims: a bare named-type pointer
(`{type: N}`), a named object's full fragment, and a reference fragment with
its `to` target-name list. -/
inductive SchemaFrag where
  | namedRef : String → SchemaFrag
  | objectNamedFrag : String → List String → SchemaFrag
  | referenceFrag : List String → SchemaFrag
deriving Repr, DecidableEq

/-- A reference node as built by the source's `referenceInternal`: the
accumulated target documents, in call order. -/
structure ReferenceNode where
  targets : List DocumentRef

/-- From the source (`referenceInternal`'s `to`): appends the new target
document, returning a new node (`[...documents, document]`). -/
def ReferenceNode.to (r : ReferenceNode) (d : DocumentRef) : ReferenceNode :=
  { targets := r.targets ++ [d] }

/-- From the source (`referenceInternal`'s `schema`): the descriptor's `to`
list is `documents.map(({name}) => ({type: name}))`. -/
def ReferenceNode.schemaTo (r : ReferenceNode) : List String :=
  r.targets.map (fun d => d.name)

/-- From the source (`reference`): the builder starts with no targets. -/
def reference0 : ReferenceNode := { targets := [] }

/-- A node as produced by `createType`. `createType` itself (src/types.ts) is
not under src/; per the spec's uniform node contract (§4.1) it derives the
node's parse from its schema and passes mock and descriptor through, which is
also the pattern visible in reference/index.ts (`parse: zod.parse.bind(zod)`). -/
structure SNode where
  zod : Zod
  mockFn : String → Value
  schemaFrag : SchemaFrag

/-- A node's parse operation: its schema's parse. -/
def SNode.parse (n : SNode) : Value → Option Value := parseV n.zod

/-- The JavaScript object spread `{...v, k: w}`: sets key `k` to `w`,
overriding any existing binding (spreading a non-record yields just the new
binding for the values that occur here). -/
def spreadSet (v : Value) (k : String) (w : Value) : Value :=
  match v with
  | .vObj l => .vObj (l.filter (fun p => p.1 ≠ k) ++ [(k, w)])
  | _ => .vObj [(k, w)]

/-- The literal type-tag field a named object injects. -/
def typeTagField (name : String) : ZFields :=
  ZFields.cons "_type" (Zod.zLiteral name) false ZFields.nil

/-- The two nodes a named-object declaration yields: the main node and the
lightweight `ref()` node. -/
structure ObjectNamedResult where
  main : SNode
  refN : SNode

/-- From the source (`objectNamed`): the schema is the field set's object
schema extended with `_type: z.literal(name)`; the default mock spreads the
field set's mock and sets `_type: name`; `ref()` shares the same `zod` and
`mock` values but emits the bare `{type: name}` descriptor. -/
def objectNamed (name : String) (flds : ZFields) (fieldsMock : String → Value) :
    ObjectNamedResult :=
  let zod := Zod.zObject (extendShape flds (typeTagField name))
  let mock := fun path => spreadSet (fieldsMock path) "_type" (Value.vStr name)
  { main := { zod := zod, mockFn := mock, schemaFrag := .objectNamedFrag name flds.names }
    refN := { zod := zod, mockFn := mock, schemaFrag := .namedRef name } }

/-- Modelled from the spec: the document builder's implementation
(src/document/index.ts) is not under src/ — only its test file is. Per spec
§3/§4.5/§8 and the tests, a document injects, besides the caller's fields,
the four identity fields `_createdAt`, `_id`, `_rev`, `_updatedAt` (the two
timestamps parsed from wire strings into structured dates) and a literal
`_type` tag equal to the declared name. -/
def identityFields (name : String) : ZFields :=
  ZFields.cons "_createdAt" Zod.zDatetimeToDate false
  (ZFields.cons "_id" Zod.zString false
  (ZFields.cons "_rev" Zod.zString false
  (ZFields.cons "_type" (Zod.zLiteral name) false
  (ZFields.cons "_updatedAt" Zod.zDatetimeToDate false ZFields.nil))))

/-- Modelled from the spec: a document's schema is its field set extended
with the injected identity fields and type tag. -/
def documentZod (name : String) (flds : ZFields) : Zod :=
  Zod.zObject (extendShape flds (identityFields name))

/-- A document node's parse operation. -/
def documentParse (name : String) (flds : ZFields) : Value → Option Value :=
  parseV (documentZod name flds)

/-- The alternatives of a union, as a list. -/
def ZAlts.toList : ZAlts → List Zod
  | .nil => []
  | .cons z zs => z :: zs.toList

/-- A field list declares `(n, z)` as a required field. -/
def ZFields.HasReq : ZFields → String → Zod → Prop
  | .nil, _, _ => False
  | .cons m w opt rest, n, z => (m = n ∧ w = z ∧ opt = false) ∨ rest.HasReq n z

theorem hasReq_append_right {gs : ZFields} {n : String} {z : Zod}
    (fs : ZFields) (h : gs.HasReq n z) : (fs.append gs).HasReq n z :=
  match fs with
  | .nil => h
  | .cons _ _ _ rest => Or.inr (hasReq_append_right rest h)

theorem filterOut_of_not_mem {banned : List String} :
    ∀ {fs : ZFields}, (∀ n ∈ fs.names, n ∉ banned) → fs.filterOut banned = fs
  | .nil, _ => rfl
  | .cons m w opt rest, h => by
      have hm : m ∉ banned := h m (by simp [ZFields.names])
      have hrest : ∀ n ∈ rest.names, n ∉ banned := by
        intro n hn
        exact h n (by simp [ZFields.names, hn])
      simp [ZFields.filterOut, hm, filterOut_of_not_mem hrest]

theorem parseV_zLiteral_some {s : String} {v w : Value}
    (h : parseV (Zod.zLiteral s) v = some w) :
    v = Value.vStr s ∧ w = Value.vStr s := by
  cases v <;> simp [parseV] at h
  case vStr t =>
    by_cases ht : t = s
    · subst ht
      simp at h
      exact ⟨rfl, h.symm⟩
    · simp [ht] at h

theorem parseV_zString_some {v w : Value}
    (h : parseV Zod.zString v = some w) :
    ∃ s, v = Value.vStr s ∧ w = Value.vStr s := by
  cases v <;> simp [parseV] at h
  case vStr s => exact ⟨s, rfl, h.symm⟩

theorem parseV_zDatetime_some {v w : Value}
    (h : parseV Zod.zDatetimeToDate v = some w) :
    ∃ s, v = Value.vStr s ∧ w = Value.vDate s := by
  cases v <;> simp [parseV] at h
  case vStr s => exact ⟨s, rfl, h.symm⟩

theorem parseV_zObject_some {sh : ZFields} {v w : Value}
    (h : parseV (Zod.zObject sh) v = some w) :
    ∃ kvs out, v = Value.vObj kvs ∧ parseFieldsV sh kvs = some out ∧
      w = Value.vObj out := by
  cases v <;> simp [parseV] at h
  case vObj kvs =>
    rcases h with ⟨out, hout, hw⟩
    exact ⟨kvs, out, rfl, hout, hw.symm⟩

/-- A required field that parses contributes its parsed binding to the
output record: the key lemma behind injected `_key` / `_type` /
identity-field claims. -/
theorem parseFields_req {kvs : List (String × Value)} {n : String} {z : Zod} :
    ∀ {fs : ZFields} {out : List (String × Value)}, fs.HasReq n z →
      parseFieldsV fs kvs = some out →
      ∃ v w, lookupKey kvs n = some v ∧ parseV z v = some w ∧ (n, w) ∈ out
  | .nil, _, hreq, _ => absurd hreq id
  | .cons m w0 opt rest, out, hreq, h => by
      rw [parseFieldsV] at h
      rcases hreq with ⟨rfl, rfl, rfl⟩ | hrest
      · split at h
        · simp at h
        · rename_i v hv
          split at h
          · rename_i w out' hw hr
            simp only [Option.some.injEq] at h
            exact ⟨v, w, hv, hw, by rw [← h]; exact List.mem_cons_self _ _⟩
          · simp at h
      · split at h
        · split at h
          · exact parseFields_req hrest h
          · simp at h
        · rename_i v hv
          split at h
          · rename_i w out' hw hr
            simp only [Option.some.injEq] at h
            rcases parseFields_req hrest hr with ⟨v', w', hv', hp', hmem⟩
            exact ⟨v', w', hv', hp', by rw [← h]; exact List.mem_cons_of_mem _ hmem⟩
          · simp at h

/-- If one element of the input fails the element schema, the whole element
list fails. -/
theorem parseElems_none {elem : Zod} {xs : List Value} {x : Value}
    (hx : x ∈ xs) (h : parseV elem x = none) : parseElems elem xs = none := by
  induction xs with
  | nil => cases hx
  | cons y ys ih =>
      rw [parseElems]
      rcases List.mem_cons.mp hx with rfl | hmem
      · rw [h]
      · rw [ih hmem]
        cases parseV elem y <;> rfl

/-- A union parse succeeds exactly when some alternative succeeds. -/
theorem parseAlts_isSome {v : Value} :
    ∀ (as : ZAlts), (parseAlts as v).isSome ↔ ∃ z ∈ as.toList, (parseV z v).isSome
  | .nil => by simp [parseAlts, ZAlts.toList]
  | .cons z zs => by
      rw [parseAlts]
      cases hp : parseV z v with
      | some w =>
          simp only [Option.isSome_some, true_iff, ZAlts.toList]
          exact ⟨z, by simp, by simp [hp]⟩
      | none =>
          simp only [ZAlts.toList, List.mem_cons, parseAlts_isSome zs]
          constructor
          · rintro ⟨z', hz', hs⟩
            exact ⟨z', Or.inr hz', hs⟩
          · rintro ⟨z', hz' | hz', hs⟩
            · subst hz'
              simp [hp] at hs
            · exact ⟨z', hz', hs⟩

theorem parseAlts_eq_none {as : ZAlts} {v : Value}
    (h : ∀ z ∈ as.toList, parseV z v = none) : parseAlts as v = none := by
  rw [← Option.not_isSome_iff_eq_none]
  rw [Bool.not_eq_true, ← Bool.not_eq_true, parseAlts_isSome as]
  rintro ⟨z, hz, hs⟩
  rw [h z hz] at hs
  simp at hs

theorem addKeyAlts_toList (l : List Zod) :
    (addKeyAlts l).toList = l.map addKeyToZod := by
  induction l with
  | nil => rfl
  | cons z zs ih => simp [addKeyAlts, ZAlts.toList, ih]

/-- The length checks on the schema the `array` builder produces, resolved
from the builder's options over the item set's check-free base array. -/
def resolveChecks (d : ArrayDef) (c : ArrayChecks) : ArrayChecks :=
  { nonempty := c.nonempty || d.nonempty
    minC := match d.min? with
      | none => c.minC
      | some m => if m = 0 then c.minC else some m
    maxC := match d.max? with
      | none => c.maxC
      | some m => if m = 0 then c.maxC else some m
    lenC := match d.length? with
      | none => c.lenC
      | some l => some l }

theorem applyArrayConstraints_zArray (d : ArrayDef) (e : Zod) (c : ArrayChecks) :
    applyArrayConstraints d (Zod.zArray e c) = Zod.zArray e (resolveChecks d c) := by
  rcases d with ⟨l?, M?, m?, ne⟩
  rcases m? with _ | m <;> rcases M? with _ | M <;> rcases l? with _ | l <;> cases ne <;>
    simp [applyArrayConstraints, resolveChecks] <;> (try split_ifs) <;> simp

/-- An input length fails the declared cardinality options: the empty array
under `nonempty`, fewer than a nonzero `min`, more than a nonzero `max`, or
anything other than a declared `length`. -/
def lengthViolates (d : ArrayDef) (n : Nat) : Prop :=
  (d.nonempty = true ∧ n = 0) ∨
  (∃ m, d.min? = some m ∧ 0 < m ∧ n < m) ∨
  (∃ m, d.max? = some m ∧ 0 < m ∧ m < n) ∨
  (∃ l, d.length? = some l ∧ n ≠ l)

theorem checksOk_eq_false_iff (d : ArrayDef) (n : Nat) :
    checksOk (resolveChecks d {}) n = false ↔ lengthViolates d n := by
  rcases d with ⟨l?, M?, m?, ne⟩
  rcases m? with _ | m <;> rcases M? with _ | M <;> rcases l? with _ | l <;> cases ne <;>
    simp [checksOk, resolveChecks, lengthViolates] <;> (try split_ifs) <;> (try simp) <;> omega

theorem parseV_string_eval (s : String) :
    parseV Zod.zString (Value.vStr s) = some (Value.vStr s) := by
  simp [parseV]

theorem parseV_boolean_eval (b : Bool) :
    parseV Zod.zBoolean (Value.vBool b) = some (Value.vBool b) := by
  simp [parseV]

theorem parseV_literal_eval (s t : String) :
    parseV (Zod.zLiteral s) (Value.vStr t) =
      if t = s then some (Value.vStr t) else none := by
  simp [parseV]

theorem parseV_datetime_eval (s : String) :
    parseV Zod.zDatetimeToDate (Value.vStr s) = some (Value.vDate s) := by
  simp [parseV]

theorem parseV_object_eval (flds : ZFields) (kvs : List (String × Value)) :
    parseV (Zod.zObject flds) (Value.vObj kvs) =
      (parseFieldsV flds kvs).map Value.vObj := by
  simp [parseV]

theorem parseV_union_eval (alts : ZAlts) (v : Value) :
    parseV (Zod.zUnion alts) v = parseAlts alts v := by
  rw [parseV]

theorem parseV_array_eval (e : Zod) (c : ArrayChecks) (xs : List Value) :
    parseV (Zod.zArray e c) (Value.vArr xs) =
      if checksOk c xs.length then (parseElems e xs).map Value.vArr else none := by
  rw [parseV]

theorem parseAlts_cons_eval (z : Zod) (zs : ZAlts) (v : Value) :
    parseAlts (ZAlts.cons z zs) v =
      (parseV z v).elim (parseAlts zs v) fun w => some w := by
  rw [parseAlts]
  cases parseV z v <;> rfl

theorem parseElems_nil_eval (e : Zod) : parseElems e [] = some [] := by
  rw [parseElems]

theorem parseElems_cons_eval (e : Zod) (x : Value) (xs : List Value) :
    parseElems e (x :: xs) =
      (parseV e x).bind fun y => (parseElems e xs).map fun ys => y :: ys := by
  rw [parseElems]
  cases parseV e x <;> cases parseElems e xs <;> rfl

theorem parseFieldsV_nil_eval (kvs : List (String × Value)) :
    parseFieldsV ZFields.nil kvs = some [] := by
  rw [parseFieldsV]

theorem parseFieldsV_cons_eval (n : String) (z : Zod) (opt : Bool) (rest : ZFields)
    (kvs : List (String × Value)) :
    parseFieldsV (ZFields.cons n z opt rest) kvs =
      (lookupKey kvs n).elim (if opt then parseFieldsV rest kvs else none)
        (fun v => (parseV z v).bind fun w =>
          (parseFieldsV rest kvs).map fun out => (n, w) :: out) := by
  rw [parseFieldsV]
  rcases lookupKey kvs n with _ | v
  · rfl
  · rcases hp : parseV z v with _ | w <;> rcases hr : parseFieldsV rest kvs with _ | out <;>
      simp [hp, hr]

/-- A sample document target used by concrete counterexamples. -/
def fooDoc : DocumentRef := { name := "foo" }

/-- C1: the spec claims every node's mock output satisfies the same node's
parse, in particular for arrays built with cardinality constraints such as
nonempty. The code violates this: the item set's default mock is the constant
empty array (the source's `mock: () => []`, flagged FIXME), which the array
builder passes through as the array's default mock, and the nonempty array
schema rejects the empty array. This theorem evaluates the code at the
failing input. -/
theorem array_default_mock_fails_nonempty_parse :
    (arrayBuilder { nonempty := true } (item1 Zod.zBoolean)).mockFn "" = Value.vArr [] ∧
    parseV (arrayBuilder { nonempty := true } (item1 Zod.zBoolean)).zodA
      ((arrayBuilder { nonempty := true } (item1 Zod.zBoolean)).mockFn "") = none := by
  constructor
  · rfl
  · simp [arrayBuilder, itemsMock, item1, ItemsNode.zod, elementSchema, addKeyToZod,
      applyArrayConstraints, parseV_array_eval, checksOk]

/-- C2 counterexample: the claim states the reference descriptor's `to` list
contains each target document's name at most once even when the same document
is added twice; in the code `to` appends without deduplication, so adding the
same document twice lists its name twice. -/
theorem reference_to_same_document_twice_duplicates :
    ((reference0.to fooDoc).to fooDoc).schemaTo = ["foo", "foo"] ∧
    ¬ List.Nodup ((reference0.to fooDoc).to fooDoc).schemaTo := by
  refine ⟨rfl, ?_⟩
  intro h
  simp [reference0, ReferenceNode.to, ReferenceNode.schemaTo, fooDoc] at h

/-- C2 amended: the reference target list is ordered and append-only but not
deduplicated — after any sequence of `to` calls the descriptor's `to` list is
the previously accumulated names followed by the added documents' names in
call order, duplicates retained. -/
theorem reference_targets_accumulate_in_call_order :
    ∀ (r : ReferenceNode) (ds : List DocumentRef),
      (ds.foldl ReferenceNode.to r).schemaTo = r.schemaTo ++ ds.map fun d => d.name := by
  intro r ds
  induction ds generalizing r with
  | nil => simp
  | cons d ds ih =>
      simp only [List.foldl_cons, List.map_cons, ih]
      simp [ReferenceNode.to, ReferenceNode.schemaTo]

/-- C7: the `ref()` node of a named object has the bare named-type pointer
`{type: N}` as its descriptor while its schema and mock are the very values
of the original node, so parse agrees with the original node on every raw
input. -/
theorem object_named_ref_shares_parse_and_mock :
    ∀ (N : String) (flds : ZFields) (fm : String → Value),
      (objectNamed N flds fm).refN.schemaFrag = SchemaFrag.namedRef N ∧
      (objectNamed N flds fm).refN.zod = (objectNamed N flds fm).main.zod ∧
      (objectNamed N flds fm).refN.mockFn = (objectNamed N flds fm).main.mockFn ∧
      ∀ v, (objectNamed N flds fm).refN.parse v = (objectNamed N flds fm).main.parse v :=
  fun _ _ _ => ⟨rfl, rfl, rfl, fun _ => rfl⟩

/-- C8: composition is pure and append-only — `to` on a reference yields a
node whose target list is the receiver's previously accumulated targets
followed by the new document (the receiver, an immutable value, is untouched),
and `item` on an item set likewise yields a new item set with the new item
appended. -/
theorem builders_append_only :
    (∀ (r : ReferenceNode) (d : DocumentRef),
        (r.to d).targets = r.targets ++ [d] ∧
        (r.to d).schemaTo = r.schemaTo ++ [d.name]) ∧
    (∀ (s : ItemsNode) (i : Zod), (s.item i).items = s.items ++ [i]) := by
  refine ⟨fun r d => ⟨rfl, ?_⟩, fun s i => rfl⟩
  simp [ReferenceNode.to, ReferenceNode.schemaTo]

/-- C10: an array over an item set with zero declared item kinds (and no
cardinality options) parses exactly the empty array: the element schema is
`never`, so the empty input succeeds and every non-empty input fails. -/
theorem array_no_items_accepts_only_empty :
    parseV (arrayBuilder {} { items := [] }).zodA (Value.vArr []) = some (Value.vArr []) ∧
    ∀ (x : Value) (xs : List Value),
      parseV (arrayBuilder {} { items := [] }).zodA (Value.vArr (x :: xs)) = none := by
  constructor
  · simp [arrayBuilder, ItemsNode.zod, elementSchema, applyArrayConstraints,
      parseV_array_eval, parseElems_nil_eval, checksOk]
  · intro x xs
    simp only [arrayBuilder, ItemsNode.zod, elementSchema, applyArrayConstraints]
    rw [parseV_array_eval]
    rw [parseElems_none (List.mem_cons_self x xs) (by rw [parseV])]
    simp [checksOk]

/-- C3: for a single-item array the element schema injects a required `_key`
string field exactly when the item schema is a record: the element schema of
a record item is the record extended with `_key`, every successfully parsed
element then carries a `_key` binding, and the element schema of a non-record
item is the item schema unchanged (no key injected). -/
theorem single_item_key_injected_iff_record :
    (∀ flds : ZFields,
        elementSchema [Zod.zObject flds] =
          Zod.zObject (extendShape flds (ZFields.cons "_key" Zod.zString false ZFields.nil))) ∧
    (∀ (flds : ZFields) (v w : Value),
        parseV (elementSchema [Zod.zObject flds]) v = some w →
        ∃ kvs, w = Value.vObj kvs ∧ "_key" ∈ kvs.map Prod.fst) ∧
    (∀ z : Zod, z.isObjectSchema = false → elementSchema [z] = z) := by
  refine ⟨fun flds => rfl, ?_, ?_⟩
  · intro flds v w h
    have h' : parseV
        (Zod.zObject (extendShape flds (ZFields.cons "_key" Zod.zString false ZFields.nil)))
        v = some w := h
    rcases parseV_zObject_some h' with ⟨kvs, out, rfl, hout, rfl⟩
    have hreq : (extendShape flds (ZFields.cons "_key" Zod.zString false ZFields.nil)).HasReq
        "_key" Zod.zString :=
      hasReq_append_right _ (Or.inl ⟨rfl, rfl, rfl⟩)
    rcases parseFields_req hreq hout with ⟨v0, w0, hv0, hw0, hmem⟩
    exact ⟨out, rfl, List.mem_map.mpr ⟨("_key", w0), hmem, rfl⟩⟩
  · intro z hz
    cases z <;> first | rfl | simp [Zod.isObjectSchema] at hz

/-- C3 witness: a concrete record item's parsed element carries the injected
`_key` binding, and a bare boolean item's element schema is unchanged. -/
theorem single_item_key_injected_iff_record_witness :
    (∃ kvs, Value.vObj [("b", Value.vBool true), ("_key", Value.vStr "k")] = Value.vObj kvs ∧
        "_key" ∈ kvs.map Prod.fst) ∧
    elementSchema [Zod.zBoolean] = Zod.zBoolean := by
  refine ⟨single_item_key_injected_iff_record.2.1
      (ZFields.cons "b" Zod.zBoolean false ZFields.nil)
      (Value.vObj [("b", Value.vBool true), ("_key", Value.vStr "k")])
      (Value.vObj [("b", Value.vBool true), ("_key", Value.vStr "k")]) ?_,
    single_item_key_injected_iff_record.2.2 Zod.zBoolean rfl⟩
  simp [elementSchema, addKeyToZod, extendShape, ZFields.filterOut, ZFields.names,
    ZFields.append, parseV_object_eval, parseFieldsV_cons_eval, parseFieldsV_nil_eval,
    parseV_boolean_eval, parseV_string_eval, lookupKey]

/-- C4: with two or more declared item kinds the element schema is the union
of the (key-injected) declared kinds — an element parses exactly when at
least one of them accepts it — and an array input containing an element that
matches none of the declared kinds fails to parse. -/
theorem multi_item_union_accepts_iff_some_kind :
    (∀ (i0 i1 : Zod) (rest : List Zod) (v : Value),
        (parseV (elementSchema (i0 :: i1 :: rest)) v).isSome ↔
          ∃ z ∈ (i0 :: i1 :: rest).map addKeyToZod, (parseV z v).isSome) ∧
    (∀ (i0 i1 : Zod) (rest : List Zod) (d : ArrayDef) (xs : List Value) (x : Value),
        x ∈ xs →
        (∀ z ∈ (i0 :: i1 :: rest).map addKeyToZod, parseV z x = none) →
        parseV (arrayBuilder d { items := i0 :: i1 :: rest }).zodA (Value.vArr xs) = none) := by
  have htl : ∀ (i0 i1 : Zod) (rest : List Zod),
      (ZAlts.cons (addKeyToZod i0) (ZAlts.cons (addKeyToZod i1) (addKeyAlts rest))).toList =
        (i0 :: i1 :: rest).map addKeyToZod := by
    intro i0 i1 rest
    simp [ZAlts.toList, addKeyAlts_toList]
  have hun : ∀ (i0 i1 : Zod) (rest : List Zod) (v : Value),
      parseV (elementSchema (i0 :: i1 :: rest)) v =
        parseAlts (ZAlts.cons (addKeyToZod i0) (ZAlts.cons (addKeyToZod i1) (addKeyAlts rest))) v := by
    intro i0 i1 rest v
    rw [show elementSchema (i0 :: i1 :: rest) =
      Zod.zUnion (ZAlts.cons (addKeyToZod i0) (ZAlts.cons (addKeyToZod i1) (addKeyAlts rest)))
      from rfl]
    rw [parseV]
  constructor
  · intro i0 i1 rest v
    rw [hun, parseAlts_isSome, htl]
  · intro i0 i1 rest d xs x hx hall
    have hnone : parseV (elementSchema (i0 :: i1 :: rest)) x = none := by
      rw [hun]
      exact parseAlts_eq_none (by rw [htl]; exact hall)
    simp only [arrayBuilder, ItemsNode.zod, applyArrayConstraints_zArray]
    rw [parseV, parseElems_none hx hnone]
    split <;> rfl

/-- C4 witness: a two-kind array (boolean and string items) rejects an input
whose element matches neither declared kind. -/
theorem multi_item_union_accepts_iff_some_kind_witness :
    parseV (arrayBuilder {} { items := [Zod.zBoolean, Zod.zString] }).zodA
      (Value.vArr [Value.vNum 0]) = none := by
  refine multi_item_union_accepts_iff_some_kind.2 Zod.zBoolean Zod.zString [] {}
    [Value.vNum 0] (Value.vNum 0) (List.mem_singleton.mpr rfl) ?_
  intro z hz
  simp [addKeyToZod] at hz
  rcases hz with rfl | rfl <;> simp [parseV]

/-- C5 counterexample: with a declared `max` of 0, the one-element input
`[true]` violates the declared max bound yet parses successfully — the
builder's JavaScript falsiness guard (`!max`) skips a zero `max` — so the
claim as stated fails. -/
theorem array_declared_max_zero_not_enforced :
    parseV (arrayBuilder { max? := some 0 } (item1 Zod.zBoolean)).zodA
      (Value.vArr [Value.vBool true]) = some (Value.vArr [Value.vBool true]) := by
  simp [arrayBuilder, item1, ItemsNode.zod, elementSchema, addKeyToZod,
    applyArrayConstraints, parseV_array_eval, parseElems_cons_eval, parseElems_nil_eval,
    parseV_boolean_eval, checksOk]

/-- C5 amended: parse fails exactly when the input length violates the
declared cardinality constraints with zero-valued `min`/`max` ignored (the
builder's falsiness guards treat them as unset); a conforming length with all
elements parsing succeeds; and the emitted descriptor's validation combines
`nonempty` as a `min 1` rule together with the (nonzero) `min`, (nonzero)
`max` and `length` rules, in that order. -/
theorem array_length_constraints :
    (∀ (d : ArrayDef) (ofItems : ItemsNode) (xs : List Value),
        lengthViolates d xs.length →
        parseV (arrayBuilder d ofItems).zodA (Value.vArr xs) = none) ∧
    (∀ (d : ArrayDef) (ofItems : ItemsNode) (xs ys : List Value),
        ¬ lengthViolates d xs.length →
        parseElems (elementSchema ofItems.items) xs = some ys →
        parseV (arrayBuilder d ofItems).zodA (Value.vArr xs) = some (Value.vArr ys)) ∧
    (∀ (m M L : Nat), m ≠ 0 → M ≠ 0 →
        arrayValidationOps
            { length? := some L, max? := some M, min? := some m, nonempty := true } =
          [RuleOp.rMin 1, RuleOp.rMin m, RuleOp.rMax M, RuleOp.rLength L]) := by
  refine ⟨?_, ?_, ?_⟩
  · intro d ofItems xs hviol
    simp only [arrayBuilder, ItemsNode.zod, applyArrayConstraints_zArray]
    rw [parseV,
      show checksOk (resolveChecks d {}) xs.length = false from
        (checksOk_eq_false_iff d xs.length).mpr hviol]
    rfl
  · intro d ofItems xs ys hok hels
    have hchk : checksOk (resolveChecks d {}) xs.length = true := by
      rcases Bool.eq_false_or_eq_true (checksOk (resolveChecks d {}) xs.length) with ht | hf
      · exact ht
      · exact absurd ((checksOk_eq_false_iff d xs.length).mp hf) hok
    simp only [arrayBuilder, ItemsNode.zod, applyArrayConstraints_zArray]
    rw [parseV, hchk, hels]
    rfl
  · intro m M L hm hM
    simp [arrayValidationOps, hm, hM]

/-- C5 witness: `min=1,max=2` rejects the empty input and accepts a
one-element input of valid elements; with all four options the descriptor's
validation emits min 1 (from nonempty), min, max and length rules. -/
theorem array_length_constraints_witness :
    parseV (arrayBuilder { max? := some 2, min? := some 1 } (item1 Zod.zBoolean)).zodA
        (Value.vArr []) = none ∧
    parseV (arrayBuilder { max? := some 2, min? := some 1 } (item1 Zod.zBoolean)).zodA
        (Value.vArr [Value.vBool true]) = some (Value.vArr [Value.vBool true]) ∧
    arrayValidationOps { length? := some 3, max? := some 2, min? := some 1, nonempty := true } =
      [RuleOp.rMin 1, RuleOp.rMin 1, RuleOp.rMax 2, RuleOp.rLength 3] := by
  refine ⟨array_length_constraints.1 _ _ [] ?_,
          array_length_constraints.2.1 _ _ [Value.vBool true] [Value.vBool true] ?_ ?_,
          array_length_constraints.2.2 1 2 3 (by decide) (by decide)⟩
  · exact Or.inr (Or.inl ⟨1, rfl, by decide, by decide⟩)
  · intro hviol
    rcases hviol with ⟨hne, _⟩ | ⟨m, hm, _, hlt⟩ | ⟨M, hM, _, hlt⟩ | ⟨l, hl, _⟩ <;> simp_all
  · simp [item1, elementSchema, addKeyToZod, parseElems_cons_eval, parseElems_nil_eval,
      parseV_boolean_eval]

/-- C6: a named object's parse accepts a raw record only when its `_type`
field is the literal declared name and its output carries that tag; the
default mock is the field set's mock extended with `_type` set to the name;
and the tag is injected by the builder, not authored — with no authored
`_type` field the node's schema is exactly the authored fields with the tag
field appended. -/
theorem object_named_type_tag :
    ∀ (N : String) (flds : ZFields) (fm : String → Value),
      (∀ v w, (objectNamed N flds fm).main.parse v = some w →
          (∃ kvs, v = Value.vObj kvs ∧ lookupKey kvs "_type" = some (Value.vStr N)) ∧
          (∃ out, w = Value.vObj out ∧ ("_type", Value.vStr N) ∈ out)) ∧
      ((objectNamed N flds fm).main.mockFn =
          fun path => spreadSet (fm path) "_type" (Value.vStr N)) ∧
      ("_type" ∉ flds.names →
          (objectNamed N flds fm).main.zod = Zod.zObject (flds.append (typeTagField N))) := by
  intro N flds fm
  refine ⟨?_, rfl, ?_⟩
  · intro v w h
    have h' : parseV (Zod.zObject (extendShape flds (typeTagField N))) v = some w := h
    rcases parseV_zObject_some h' with ⟨kvs, out, rfl, hout, rfl⟩
    have hreq : (extendShape flds (typeTagField N)).HasReq "_type" (Zod.zLiteral N) :=
      hasReq_append_right _ (Or.inl ⟨rfl, rfl, rfl⟩)
    rcases parseFields_req hreq hout with ⟨v0, w0, hv0, hw0, hmem⟩
    rcases parseV_zLiteral_some hw0 with ⟨rfl, rfl⟩
    exact ⟨⟨kvs, rfl, hv0⟩, ⟨out, rfl, hmem⟩⟩
  · intro hnot
    show Zod.zObject (extendShape flds (typeTagField N)) = _
    rw [extendShape, show (typeTagField N).names = ["_type"] from rfl,
      filterOut_of_not_mem
        (fun n hn => by simp only [List.mem_singleton]; exact fun heq => hnot (heq ▸ hn))]

/-- C6 witness: at a concrete named object (`name = "foo"`, one authored
string field) a tagged raw record parses and its output carries the injected
tag, and the builder's schema is the authored fields with the tag appended. -/
theorem object_named_type_tag_witness :
    ((∃ kvs, Value.vObj [("_type", Value.vStr "foo"), ("hello", Value.vStr "world")] =
          Value.vObj kvs ∧ lookupKey kvs "_type" = some (Value.vStr "foo")) ∧
      (∃ out, Value.vObj [("hello", Value.vStr "world"), ("_type", Value.vStr "foo")] =
          Value.vObj out ∧ ("_type", Value.vStr "foo") ∈ out)) ∧
    (objectNamed "foo" (ZFields.cons "hello" Zod.zString false ZFields.nil)
        (fun _ => Value.vNull)).main.zod =
      Zod.zObject ((ZFields.cons "hello" Zod.zString false ZFields.nil).append
        (typeTagField "foo")) := by
  refine ⟨(object_named_type_tag "foo" (ZFields.cons "hello" Zod.zString false ZFields.nil)
      (fun _ => Value.vNull)).1
      (Value.vObj [("_type", Value.vStr "foo"), ("hello", Value.vStr "world")])
      (Value.vObj [("hello", Value.vStr "world"), ("_type", Value.vStr "foo")]) ?_,
    (object_named_type_tag "foo" (ZFields.cons "hello" Zod.zString false ZFields.nil)
      (fun _ => Value.vNull)).2.2 (by simp [ZFields.names])⟩
  show parseV _ _ = _
  simp [objectNamed, extendShape, typeTagField, ZFields.filterOut, ZFields.names,
    ZFields.append, parseV_object_eval, parseFieldsV_cons_eval, parseFieldsV_nil_eval,
    parseV_string_eval, parseV_literal_eval, lookupKey]

/-- The authored field set of the concrete document used as a witness. -/
def docFields : ZFields := ZFields.cons "foo" Zod.zBoolean false ZFields.nil

/-- A concrete raw document value (the shape the document tests use). -/
def docInputKvs : List (String × Value) :=
  [("_createdAt", Value.vStr "2022-06-03T03:24:55.395Z"),
   ("_id", Value.vStr "2106a34f-315f-44bc-929b-bf8e9a3eba0d"),
   ("_rev", Value.vStr "somerevstring"),
   ("_type", Value.vStr "foo"),
   ("_updatedAt", Value.vStr "2022-06-03T03:24:55.395Z"),
   ("foo", Value.vBool true)]

/-- The application value the concrete raw document parses to: timestamps
converted to structured dates, in schema field order. -/
def docParsedOut : List (String × Value) :=
  [("foo", Value.vBool true),
   ("_createdAt", Value.vDate "2022-06-03T03:24:55.395Z"),
   ("_id", Value.vStr "2106a34f-315f-44bc-929b-bf8e9a3eba0d"),
   ("_rev", Value.vStr "somerevstring"),
   ("_type", Value.vStr "foo"),
   ("_updatedAt", Value.vDate "2022-06-03T03:24:55.395Z")]

/-- C9: a document parse accepts a raw record only when its `_type` tag is
the literal declared name (a wrong tag is rejected), and its output carries
the four identity fields, the creation and last-update timestamps converted
from wire strings into structured dates. The document builder is modelled
from the spec (its implementation is not under src/). -/
theorem document_parse_identity_fields :
    ∀ (N : String) (flds : ZFields),
      (∀ (kvs : List (String × Value)) (w : Value),
          documentParse N flds (Value.vObj kvs) = some w →
          lookupKey kvs "_type" = some (Value.vStr N) ∧
          ∃ out, w = Value.vObj out ∧
            ("_type", Value.vStr N) ∈ out ∧
            (∃ i, ("_id", Value.vStr i) ∈ out) ∧
            (∃ r, ("_rev", Value.vStr r) ∈ out) ∧
            (∃ s, lookupKey kvs "_createdAt" = some (Value.vStr s) ∧
              ("_createdAt", Value.vDate s) ∈ out) ∧
            (∃ s, lookupKey kvs "_updatedAt" = some (Value.vStr s) ∧
              ("_updatedAt", Value.vDate s) ∈ out)) ∧
      (∀ (kvs : List (String × Value)) (t : String),
          lookupKey kvs "_type" = some (Value.vStr t) → t ≠ N →
          documentParse N flds (Value.vObj kvs) = none) := by
  intro N flds
  have hsh : ∀ (n : String) (z : Zod), (identityFields N).HasReq n z →
      (extendShape flds (identityFields N)).HasReq n z :=
    fun n z h => hasReq_append_right _ h
  constructor
  · intro kvs w h
    have h' : parseV (Zod.zObject (extendShape flds (identityFields N)))
        (Value.vObj kvs) = some w := h
    rcases parseV_zObject_some h' with ⟨kvs', out, hkv, hout, rfl⟩
    obtain rfl : kvs' = kvs := by injection hkv.symm
    have htype := parseFields_req
      (hsh "_type" (Zod.zLiteral N) (Or.inr (Or.inr (Or.inr (Or.inl ⟨rfl, rfl, rfl⟩))))) hout
    rcases htype with ⟨vt, wt, hvt, hwt, hmt⟩
    rcases parseV_zLiteral_some hwt with ⟨rfl, rfl⟩
    have hid := parseFields_req
      (hsh "_id" Zod.zString (Or.inr (Or.inl ⟨rfl, rfl, rfl⟩))) hout
    rcases hid with ⟨vi, wi, hvi, hwi, hmi⟩
    rcases parseV_zString_some hwi with ⟨i, rfl, rfl⟩
    have hrev := parseFields_req
      (hsh "_rev" Zod.zString (Or.inr (Or.inr (Or.inl ⟨rfl, rfl, rfl⟩)))) hout
    rcases hrev with ⟨vr, wr, hvr, hwr, hmr⟩
    rcases parseV_zString_some hwr with ⟨r, rfl, rfl⟩
    have hcr := parseFields_req
      (hsh "_createdAt" Zod.zDatetimeToDate (Or.inl ⟨rfl, rfl, rfl⟩)) hout
    rcases hcr with ⟨vc, wc, hvc, hwc, hmc⟩
    rcases parseV_zDatetime_some hwc with ⟨s, rfl, rfl⟩
    have hup := parseFields_req
      (hsh "_updatedAt" Zod.zDatetimeToDate
        (Or.inr (Or.inr (Or.inr (Or.inr (Or.inl ⟨rfl, rfl, rfl⟩)))))) hout
    rcases hup with ⟨vu, wu, hvu, hwu, hmu⟩
    rcases parseV_zDatetime_some hwu with ⟨u, rfl, rfl⟩
    exact ⟨hvt, out, rfl, hmt, ⟨i, hmi⟩, ⟨r, hmr⟩, ⟨s, hvc, hmc⟩, ⟨u, hvu, hmu⟩⟩
  · intro kvs t hl hne
    cases hp : documentParse N flds (Value.vObj kvs) with
    | none => rfl
    | some w =>
        exfalso
        have h' : parseV (Zod.zObject (extendShape flds (identityFields N)))
            (Value.vObj kvs) = some w := hp
        rcases parseV_zObject_some h' with ⟨kvs', out, hkv, hout, -⟩
        obtain rfl : kvs' = kvs := by injection hkv.symm
        have htype := parseFields_req
          (hsh "_type" (Zod.zLiteral N) (Or.inr (Or.inr (Or.inr (Or.inl ⟨rfl, rfl, rfl⟩))))) hout
        rcases htype with ⟨vt, wt, hvt, hwt, -⟩
        rcases parseV_zLiteral_some hwt with ⟨rfl, -⟩
        have := hl.symm.trans hvt
        simp at this
        exact hne this

/-- C9 witness: the concrete document (`name = "foo"`, one boolean field)
parses the sample raw value to the expected application value with all
identity fields, converted dates, and rejects a wrong type tag. -/
theorem document_parse_identity_fields_witness :
    (lookupKey docInputKvs "_type" = some (Value.vStr "foo") ∧
      ∃ out, Value.vObj docParsedOut = Value.vObj out ∧
        ("_type", Value.vStr "foo") ∈ out ∧
        (∃ i, ("_id", Value.vStr i) ∈ out) ∧
        (∃ r, ("_rev", Value.vStr r) ∈ out) ∧
        (∃ s, lookupKey docInputKvs "_createdAt" = some (Value.vStr s) ∧
          ("_createdAt", Value.vDate s) ∈ out) ∧
        (∃ s, lookupKey docInputKvs "_updatedAt" = some (Value.vStr s) ∧
          ("_updatedAt", Value.vDate s) ∈ out)) ∧
    documentParse "foo" docFields (Value.vObj [("_type", Value.vStr "bar")]) = none := by
  refine ⟨(document_parse_identity_fields "foo" docFields).1 docInputKvs
      (Value.vObj docParsedOut) ?_,
    (document_parse_identity_fields "foo" docFields).2 [("_type", Value.vStr "bar")] "bar"
      (by simp [lookupKey]) (by decide)⟩
  simp [documentParse, documentZod, identityFields, extendShape, ZFields.filterOut,
    ZFields.names, ZFields.append, docFields, docInputKvs, docParsedOut,
    parseV_object_eval, parseFieldsV_cons_eval, parseFieldsV_nil_eval,
    parseV_boolean_eval, parseV_string_eval, parseV_literal_eval, parseV_datetime_eval,
    lookupKey]

end SchemaBuilder
